import Mathlib

/-
Verification of the reconciliation engine of sync.py: slug identity,
alias resolution, place reconciliation (merge into persisted records),
and cuisine taxonomy regeneration.  Python dictionaries holding record
metadata are modelled as ordered association lists with insert-or-replace
update; rows of the external spreadsheet are association lists from column
name to cell string, where a missing column makes the field accessor fail
(the library accessor raises ValueError in that case).
-/

/-- A metadata value of a persisted record: boolean, string, explicit null,
list of strings, or list of name/url pairs (third-party ordering links). -/
inductive Value where
  | b : Bool → Value
  | s : String → Value
  | vnone : Value
  | list : List String → Value
  | urls : List (String × String) → Value
deriving DecidableEq

/-- Lookup in an ordered association list (first binding wins, as in a
Python dict, whose keys are unique). -/
def alookup {α : Type} : List (String × α) → String → Option α
  | [], _ => none
  | (k, v) :: rest, key => if k = key then some v else alookup rest key

/-- Insert-or-replace on an ordered association list: an existing key keeps
its position and gets the new value, a new key is appended at the end.
This is exactly how assignment to a Python dict key behaves. -/
def ainsert {α : Type} : List (String × α) → String → α → List (String × α)
  | [], key, v => [(key, v)]
  | (k, w) :: rest, key, v =>
    if k = key then (key, v) :: rest else (k, w) :: ainsert rest key v

/-- The keys of an association list are pairwise distinct (Python dict
invariant, maintained by ainsert). -/
def NodupKeys {α : Type} (m : List (String × α)) : Prop :=
  (m.map Prod.fst).Nodup

/-- post.metadata.update(place): fold the computed fields into the loaded
metadata, field by field, in order. -/
def mupdate (post place : List (String × Value)) : List (String × Value) :=
  place.foldl (fun acc kv => ainsert acc kv.1 kv.2) post

/-- Stopword list passed to every slugify call in sync.py. -/
def STOPWORDS : List String := ["the"]

/-- ASCII letter or digit (structural stand-in for the character classes the
slugify library keeps). -/
def isWordChar (c : Char) : Bool :=
  (('a' ≤ c && c ≤ 'z') || ('A' ≤ c && c ≤ 'Z') || ('0' ≤ c && c ≤ '9'))

/-- ASCII lowercasing of one character, by explicit table so that the kernel
evaluates it on concrete inputs. -/
def lowerChar : Char → Char
  | 'A' => 'a' | 'B' => 'b' | 'C' => 'c' | 'D' => 'd' | 'E' => 'e' | 'F' => 'f'
  | 'G' => 'g' | 'H' => 'h' | 'I' => 'i' | 'J' => 'j' | 'K' => 'k' | 'L' => 'l'
  | 'M' => 'm' | 'N' => 'n' | 'O' => 'o' | 'P' => 'p' | 'Q' => 'q' | 'R' => 'r'
  | 'S' => 's' | 'T' => 't' | 'U' => 'u' | 'V' => 'v' | 'W' => 'w' | 'X' => 'x'
  | 'Y' => 'y' | 'Z' => 'z'
  | c => c

/-- Python str.lower on the ASCII range. -/
def lowerStr (s : String) : String :=
  String.mk (s.data.map lowerChar)

/-- Split a character list on a separator character; like Python str.split
with a one-character separator (an empty input yields one empty field). -/
def splitOnChar (sep : Char) : List Char → List (List Char)
  | [] => [[]]
  | c :: rest =>
    match splitOnChar sep rest with
    | [] => if c = sep then [[], []] else [[c]]
    | w :: ws => if c = sep then [] :: w :: ws else (c :: w) :: ws

/-- Join word fragments with a hyphen. -/
def joinHyphen : List (List Char) → List Char
  | [] => []
  | [w] => w
  | w :: ws => w ++ '-' :: joinHyphen ws

/-- Modelled from the spec: the external Slug Identity Function (section 4.1),
provided by the slugify library and out of scope of the source: lowercase the
label, keep alphanumeric runs as words, drop stopwords as whole words, join
with a hyphen.  Definitions below are parameterized over an arbitrary slug
function sl; this concrete model instantiates them on concrete inputs. -/
def slugifyModel (s : String) : String :=
  let chars := s.data.map (fun c => if isWordChar c then lowerChar c else ' ')
  let words := splitOnChar ' ' chars
  let words := words.filter (fun w => !w.isEmpty && !(STOPWORDS.contains (String.mk w)))
  String.mk (joinHyphen words)

/-- Drop leading space characters. -/
def dropSpaces : List Char → List Char
  | [] => []
  | c :: rest => if c = ' ' then dropSpaces rest else c :: rest

/-- Python str.strip restricted to spaces (the whitespace that occurs around
comma-separated cuisine labels). -/
def stripStr (s : String) : String :=
  String.mk ((dropSpaces (dropSpaces s.data).reverse).reverse)

/-- Python value.startswith("http"). -/
def startsWithHttp (value : String) : Bool :=
  value.data.take 4 = "http".data

/-- verify_http from sync.py: an empty value and a value starting with
"http" are returned unchanged, anything else gets an https prefix. -/
def verify_http (value : String) : String :=
  if value = "" || startsWithHttp value then value else "https://" ++ value

/-- Does a character list contain the three-character scheme separator. -/
def containsSchemeSep : List Char → Bool
  | ':' :: '/' :: '/' :: _ => true
  | _ :: rest => containsSchemeSep rest
  | [] => false

/-- Modelled from the spec: a URL value has a scheme when it contains the
separator "://" (used only to state claims about scheme handling). -/
def hasUrlScheme (value : String) : Bool :=
  containsSchemeSep value.data

/-- The coercion table of the external typesystem Boolean validator after the
update on line 18 of sync.py.  Modelled from the spec: the library validator
lowercases a string input and looks it up here; some true / some false is a
successful coercion, none is the null coercion of the empty string (rejected,
since null is not allowed), and a key that is absent is a type error. -/
def coerce_values : List (String × Option Bool) :=
  [("true", some true), ("false", some false),
   ("on", some true), ("off", some false),
   ("1", some true), ("0", some false),
   ("", none),
   ("n", some false), ("no", some false), ("y", some true), ("yes", some true)]

/-- Modelled from the spec: Boolean().validate_or_error of the typesystem
library; a missing (null) input and every unparseable input produce an error,
reported here as none. -/
def booleanValidate (value : Option String) : Option Bool :=
  match value with
  | none => none
  | some s =>
    match alookup coerce_values (lowerStr s) with
    | some (some b) => some b
    | some none => none
    | none => none

/-- string_to_boolean from sync.py: run the validator and turn a None result
(validation error) into False. -/
def string_to_boolean (value : Option String) : Bool :=
  (booleanValidate value).getD false

/-- The declared boolean columns of the spreadsheet. -/
def SHEETS_BOOL_FIELDS : List String :=
  ["active", "curbside", "delivery", "dinein", "featured", "giftcard",
   "perma_closed", "takeout"]

/-- The declared string columns of the spreadsheet. -/
def SHEETS_STRING_FIELDS : List String :=
  ["name", "address", "place_type", "cuisine", "curbside_instructions",
   "giftcard_notes", "hours", "locality", "neighborhood", "notes", "region",
   "restaurant_phone"]

/-- The declared URL columns of the spreadsheet. -/
def SHEETS_URL_FIELDS : List String :=
  ["delivery_service_websites", "facebook_url", "giftcard_url",
   "instagram_url", "twitch_url", "twitter_url", "website"]

/-- The column-to-platform-name table for third-party ordering links. -/
def FOOD_SERVICE_DICT : List (String × String) :=
  [("chownow_url", "chownow.com"), ("doordash_url", "doordash.com"),
   ("eatstreet_url", "eatstreet.com"), ("grubhub_url", "grubhub.com"),
   ("postmates_url", "postmates.com"), ("seamless_url", "seamless.com"),
   ("ubereats_url", "ubereats.com")]

/-- The fixed list of named delivery-platform URL columns. -/
def FOOD_SERVICE_URLS : List String :=
  ["chownow_url", "doordash_url", "eatstreet_url", "grubhub_url",
   "postmates_url", "seamless_url", "ubereats_url"]

/-- The seed list of pre-approved canonical cuisine categories. -/
def CUISINE_INITIAL : List String :=
  ["American", "Asian", "Bakeries", "Bar & Grill", "Barbecue", "Bars",
   "Breakfast", "Breweries", "Burgers", "Butcher", "Cajun", "Chinese",
   "Coffee and Tea", "Deli", "Desserts", "Ethiopian", "Fast Food",
   "Fine Dining", "Fried Chicken", "Greek", "Homestyle Cookin\x27",
   "Ice Cream / Juice", "Indian", "Italian", "Japanese", "Korean",
   "Latin American", "Mexican", "Middle-Eastern", "Pizza",
   "Sandwiches/Subs", "Seafood", "Spanish", "Steakhouse", "Sushi", "Thai"]

/-- CUISINE_INITIAL_SLUGS from sync.py, relative to a slug function. -/
def CUISINE_INITIAL_SLUGS (sl : String → String) : List String :=
  CUISINE_INITIAL.map sl

/-- One entry of the persisted alias file: a canonical name and its aliases. -/
structure AliasEntry where
  name : String
  aliases : List String
deriving DecidableEq

/-- The persisted alias data: taxonomy kind to list of alias entries. -/
abbrev AliasesData := List (String × List AliasEntry)

/-- load_aliases from sync.py: the parameter holds the parsed content of
_data/aliases.yml when the file exists; a missing file yields the empty
structure. -/
def load_aliases (file : Option AliasesData) : AliasesData :=
  file.getD []

/-- aliases_to_cuisine from sync.py: builds the mapping alias-string to
canonical name from the cuisines entries.  Indexing a missing cuisines key
raises KeyError, reported here as an error value. -/
def aliases_to_cuisine (data : AliasesData) : Except String (List (String × String)) :=
  match alookup data "cuisines" with
  | none => Except.error "cuisines"
  | some cuisines =>
    Except.ok (cuisines.foldl
      (fun d cuisine => cuisine.aliases.foldl (fun d a => ainsert d a cuisine.name) d) [])

/-- The unknown-cuisines bucket as read by sync_places; the bare except in
the source turns any failure (missing key, empty list) into None. -/
def unknownCuisines (data : AliasesData) : Option (List String) :=
  match alookup data "unknown-cuisines" with
  | some (e :: _) => some e.aliases
  | _ => none

/-- A persisted Place record: frontmatter metadata plus free-text body. -/
structure Record where
  metadata : List (String × Value)
  content : String
deriving DecidableEq

/-- The empty record used when no file exists at the slug yet. -/
def emptyRecord : Record := ⟨[], ""⟩

/-- One external spreadsheet row: column name to cell string.  A column that
is absent models a missing expected column, on which the field accessor of
the sheet library raises ValueError. -/
abbrev Row := List (String × String)

/-- item.get_field_value as an Option: none models the raised ValueError. -/
def rowGet (row : Row) (column : String) : Option String :=
  alookup row column

/-- One guarded loop iteration of sync_places: read the column, coerce it and
store it under the column name; on a missing column, log the column name
instead (the source echoes a message naming the column). -/
def fieldStep (row : Row) (coe : String → Value)
    (acc : List (String × Value) × List String) (var : String) :
    List (String × Value) × List String :=
  match rowGet row var with
  | some v => (ainsert acc.1 var (coe v), acc.2)
  | none => (acc.1, acc.2 ++ [var])

/-- A whole guarded loop of sync_places over one list of declared columns. -/
def fieldFold (row : Row) (coe : String → Value) (vars : List String)
    (acc : List (String × Value) × List String) :
    List (String × Value) × List String :=
  vars.foldl (fieldStep row coe) acc

/-- Coercion used for declared boolean columns. -/
def boolCoe (v : String) : Value := Value.b (string_to_boolean (some v))

/-- Coercion used for declared string columns. -/
def strCoe (v : String) : Value := Value.s v

/-- Coercion used for declared URL columns. -/
def urlCoe (v : String) : Value := Value.s (verify_http v)

/-- The place dict of sync_places after the three guarded loops, together
with the list of logged missing columns: it starts from sitemap = False and
slug, then folds the boolean, string and URL columns in order. -/
def buildPlaceFields (row : Row) (slug : String) :
    List (String × Value) × List String :=
  let init : List (String × Value) := [("sitemap", Value.b false), ("slug", Value.s slug)]
  let a1 := fieldFold row boolCoe SHEETS_BOOL_FIELDS (init, [])
  let a2 := fieldFold row strCoe SHEETS_STRING_FIELDS a1
  fieldFold row urlCoe SHEETS_URL_FIELDS a2

/-- One iteration of the cuisine_slugs loop of sync_places: append the slug
of the label unconditionally, then append its alias resolution (the canonical
name from aliases_to_cuisine) when the slug has one and the resolved name is
not already in the list built so far. -/
def cuisineSlugStep (sl : String → String) (ca : List (String × String))
    (acc : List String) (c : String) : List String :=
  let cslug := sl c
  let acc := acc ++ [cslug]
  match alookup ca cslug with
  | some canon => if acc.contains canon then acc else acc ++ [canon]
  | none => acc

/-- The cuisine_slugs list built by sync_places from the surviving labels. -/
def buildCuisineSlugs (sl : String → String) (ca : List (String × String))
    (cs : List String) : List String :=
  cs.foldl (cuisineSlugStep sl ca) []

/-- The cuisines value of sync_places: a present non-empty cuisine cell is
split on commas, stripped, and filtered against a non-empty unknown bucket;
a missing or empty cell yields an explicit None. -/
def cuisinesVal (sl : String → String) (unknown : Option (List String))
    (pl : List (String × Value)) : Value :=
  match alookup pl "cuisine" with
  | some (Value.s c) =>
    if c = "" then Value.vnone
    else
      let cs := (splitOnChar ',' c.data).map (fun w => stripStr (String.mk w))
      let cs :=
        match unknown with
        | some us => if us.isEmpty then cs else cs.filter (fun x => !(us.contains (sl x)))
        | none => cs
      Value.list cs
  | _ => Value.vnone

/-- The cuisine_slugs value of sync_places: built from a non-empty cuisines
list, an explicit None when cuisines is None or empty. -/
def cuisineSlugsVal (sl : String → String) (ca : List (String × String)) :
    Value → Value
  | Value.list cs =>
    if cs.isEmpty then Value.vnone else Value.list (buildCuisineSlugs sl ca cs)
  | _ => Value.vnone

/-- The cuisines / cuisine_slugs section of sync_places. -/
def addCuisineBlock (sl : String → String) (ca : List (String × String))
    (unknown : Option (List String)) (pl : List (String × Value)) :
    List (String × Value) :=
  ainsert (ainsert pl "cuisines" (cuisinesVal sl unknown pl)) "cuisine_slugs"
    (cuisineSlugsVal sl ca (cuisinesVal sl unknown pl))

/-- The neighborhood_slug section of sync_places: set only when the
neighborhood field made it into the place dict with a non-empty value. -/
def addNeighborhoodSlug (sl : String → String) (pl : List (String × Value)) :
    List (String × Value) :=
  match alookup pl "neighborhood" with
  | some (Value.s n) => if n = "" then pl else ainsert pl "neighborhood_slug" (Value.s (sl n))
  | _ => pl

/-- The order-online entry of food_urls, from a non-empty
delivery_service_websites field of the place dict. -/
def deliveryFu (pl : List (String × Value)) : List (String × String) :=
  match alookup pl "delivery_service_websites" with
  | some (Value.s d) => if d = "" then [] else [("order online", d)]
  | _ => []

/-- One iteration of the delivery-platform loop of sync_places. -/
def foodStep (row : Row) (acc : List (String × String) × List String)
    (var : String) : List (String × String) × List String :=
  match rowGet row var with
  | some v =>
    let v := verify_http v
    if v = "" then acc
    else (acc.1 ++ [((alookup FOOD_SERVICE_DICT var).getD "", v)], acc.2)
  | none => (acc.1, acc.2 ++ [var])

/-- The food_urls section of sync_places, continued: the collected list is
always stored under food_urls, and missing platform columns are logged. -/
def addFoodUrls (row : Row) (pl : List (String × Value)) :
    List (String × Value) × List String :=
  let acc := FOOD_SERVICE_URLS.foldl (foodStep row) (deliveryFu pl, [])
  (ainsert pl "food_urls" (Value.urls acc.1), acc.2)

/-- The complete place dict computed by sync_places for one row at a given
slug, together with all logged missing columns, in source order. -/
def builtPlace (sl : String → String) (ca : List (String × String))
    (unknown : Option (List String)) (row : Row) (slug : String) :
    List (String × Value) × List String :=
  let a := buildPlaceFields row slug
  let pl := addCuisineBlock sl ca unknown a.1
  let pl := addNeighborhoodSlug sl pl
  let b := addFoodUrls row pl
  (b.1, a.2 ++ b.2)

/-- The body of the row loop of sync_places: read the identity columns (name,
address, neighborhood) and the notes column without any guard, so a missing
one of those four aborts the row with an error; load the existing record at
the computed slug (or start empty), build the place dict, replace the body
with the notes cell, merge the place dict into the loaded metadata and
return the record to be written. -/
def processRow (sl : String → String) (ca : List (String × String))
    (unknown : Option (List String)) (store : String → Option Record)
    (row : Row) : Except String (String × Record × List String) :=
  match rowGet row "name", rowGet row "address", rowGet row "neighborhood" with
  | none, _, _ => Except.error "name"
  | some _, none, _ => Except.error "address"
  | some _, some _, none => Except.error "neighborhood"
  | some name, some address, some neighborhood =>
    let slug := sl (name ++ " " ++ (if neighborhood = "" then address else neighborhood))
    let post := (store slug).getD emptyRecord
    let plg := builtPlace sl ca unknown row slug
    match rowGet row "notes" with
    | none => Except.error "notes"
    | some notes => Except.ok (slug, ⟨mupdate post.metadata plg.1, notes⟩, plg.2)

/-- Write one record file into the places collection. -/
def storeWrite (store : String → Option Record) (slug : String) (rec : Record) :
    String → Option Record :=
  fun s => if s = slug then some rec else store s

/-- The row loop of sync_places over the whole table: an error on any row
aborts the pass. -/
def syncPlacesRows (sl : String → String) (ca : List (String × String))
    (unknown : Option (List String)) (store : String → Option Record) :
    List Row → Except String (String → Option Record)
  | [] => Except.ok store
  | row :: rest =>
    match processRow sl ca unknown store row with
    | Except.error e => Except.error e
    | Except.ok out => syncPlacesRows sl ca unknown (storeWrite store out.1 out.2.1) rest

/-- The sync-places command: build the alias-to-cuisine mapping (KeyError on
a missing cuisines key aborts), read the unknown bucket under a bare except,
then reconcile every row. -/
def syncPlacesCmd (sl : String → String) (file : Option AliasesData)
    (store : String → Option Record) (rows : List Row) :
    Except String (String → Option Record) :=
  match aliases_to_cuisine (load_aliases file) with
  | Except.error e => Except.error e
  | Except.ok ca =>
    syncPlacesRows sl ca (unknownCuisines (load_aliases file)) store rows

/-- Python cuisine.endswith("s"). -/
def endsWithS (s : String) : Bool :=
  s.data.reverse.head? = some 's'

/-- The full cuisine record generated for a seed canonical cuisine by
sync_cuisines: visible flags, generated description and title (plural names
skip the word Restaurants), and, when the alias table has an entry whose
lowercased name equals the seed slug, the alias list plus one legacy
redirect path per alias. -/
def seedPost (sl : String → String) (ca : List AliasEntry) (cuisine : String) :
    List (String × Value) :=
  let cslug := sl cuisine
  let m : List (String × Value) :=
    [("active", Value.b true),
     ("description", Value.s (cuisine ++ " restaurants offering curbside, takeout, and delivery food in Lawrence, Kansas")),
     ("name", Value.s cuisine),
     ("sitemap", Value.b true),
     ("slug", Value.s cslug)]
  let m := ainsert m "title"
    (Value.s (if endsWithS cuisine then cuisine ++ " in Lawrence, Kansas"
              else cuisine ++ " Restaurants in Lawrence, Kansas"))
  match (ca.filter (fun al => cslug = lowerStr al.name)).head? with
  | some entry =>
    ainsert (ainsert m "aliases" (Value.list entry.aliases)) "redirect_from"
      (Value.list (entry.aliases.map (fun a => "/cuisines/" ++ sl a ++ "/")))
  | none => m

/-- The minimal non-visible placeholder record generated for an observed
cuisine value with no canonical coverage. -/
def placeholderPost (sl : String → String) (cuisine : String) :
    List (String × Value) :=
  [("active", Value.b false), ("name", Value.s cuisine),
   ("sitemap", Value.b false), ("slug", Value.s (sl cuisine))]

/-- Keep the first occurrence of every element not seen before. -/
def dedupFirstAux : List String → List String → List String
  | [], _ => []
  | x :: rest, seen =>
    if seen.contains x then dedupFirstAux rest seen
    else x :: dedupFirstAux rest (x :: seen)

/-- Keep the first occurrence of every element; stands in for the iteration
over the Python set of observed values (whose order is unspecified). -/
def dedupFirst (l : List String) : List String :=
  dedupFirstAux l []

/-- The cuisines collection: slug to generated record metadata (the record
files of _cuisines, whose bodies are empty). -/
abbrev CuStore := String → Option (List (String × Value))

/-- One iteration of the seed loop of sync_cuisines: write a full record at
the seed slug when its file is missing or when overwrite is set. -/
def seedStep (sl : String → String) (ca : List AliasEntry) (overwrite : Bool)
    (st : CuStore) (cuisine : String) : CuStore :=
  if (st (sl cuisine)).isNone || overwrite then
    fun s => if s = sl cuisine then some (seedPost sl ca cuisine) else st s
  else st

/-- One iteration of the observed-value loop of sync_cuisines. -/
def placeholderStep (sl : String → String) (alias_data : List String)
    (st : CuStore) (cuisine : String) : CuStore :=
  if alias_data.contains (lowerStr cuisine) then st
  else if (st (sl cuisine)).isNone then
    fun s => if s = sl cuisine then some (placeholderPost sl cuisine) else st s
  else st

/-- sync_cuisines from sync.py, after the cuisines key of the alias data has
been read: the seed loop writes a full record for every seed cuisine whose
file is missing or when overwrite is set; the observed-value loop then
writes a placeholder for every observed value whose lowercased raw form is
not some alias and whose file is still missing.  placeData is the flattened
list of cuisines values observed in the places collection. -/
def sync_cuisines (sl : String → String) (seeds : List String) (overwrite : Bool)
    (ca : List AliasEntry) (placeData : List String) (store : CuStore) : CuStore :=
  (dedupFirst placeData).foldl
    (placeholderStep sl ((ca.map AliasEntry.aliases).flatten))
    (seeds.foldl (seedStep sl ca overwrite) store)

/-- The sync-cuisines command: indexing the cuisines key of the alias data
raises KeyError when it is absent, which aborts the command. -/
def syncCuisinesCmd (sl : String → String) (overwrite : Bool)
    (file : Option AliasesData) (placeData : List String) (store : CuStore) :
    Except String CuStore :=
  match alookup (load_aliases file) "cuisines" with
  | none => Except.error "cuisines"
  | some ca => Except.ok (sync_cuisines sl CUISINE_INITIAL overwrite ca placeData store)

/-- sync_cuisines_to_aliases from sync.py: append an entry (with empty alias
list) for every seed cuisine whose slug is not yet the lowercased name of an
entry, recompute the unknown bucket as exactly the observed slugs covered
neither by an alias nor by the seed slugs, and persist both.  Indexing the
cuisines key raises KeyError when it is absent. -/
def sync_cuisines_to_aliases (sl : String → String) (file : Option AliasesData)
    (placeData : List String) : Except String AliasesData :=
  match alookup (load_aliases file) "cuisines" with
  | none => Except.error "cuisines"
  | some cuisine_aliases =>
    let ca2 := CUISINE_INITIAL.foldl
      (fun acc cuisine =>
        let cslug := sl cuisine
        if acc.any (fun al => cslug = lowerStr al.name) then acc
        else acc ++ [⟨cslug, []⟩])
      cuisine_aliases
    let data := dedupFirst (placeData.map sl)
    let unknown := data.filter
      (fun c => !(ca2.any (fun al => al.aliases.contains c))
        && !((CUISINE_INITIAL_SLUGS sl).contains c))
    let aliases := ainsert (load_aliases file) "cuisines" ca2
    Except.ok (ainsert aliases "unknown-cuisines" [⟨"unknown-cuisines", unknown⟩])

/-- All declared columns handled by the three guarded loops of sync_places. -/
def allDeclaredFields : List String :=
  SHEETS_BOOL_FIELDS ++ SHEETS_STRING_FIELDS ++ SHEETS_URL_FIELDS

/-- Extract the payload of a successful row reconciliation (used to state
concrete witnesses). -/
def okOut (e : Except String (String × Record × List String)) :
    String × Record × List String :=
  match e with
  | Except.ok out => out
  | Except.error _ => ("", emptyRecord, [])

def rowW10 : Row :=
  [("name", "The Casbah"), ("address", "803 Mass St"), ("neighborhood", ""),
   ("notes", "a market")]

def storeW10 : String → Option Record :=
  fun s =>
    if s = "casbah-803-mass-st" then
      some ⟨[("sitemap", Value.b true), ("slug", Value.s "stale-slug")], "old body"⟩
    else none

def outW10 : String × Record × List String :=
  okOut (processRow slugifyModel [] none storeW10 rowW10)

def rowW9 : Row :=
  [("name", "Quiet Diner"), ("address", "5 Elm"), ("neighborhood", ""),
   ("notes", ""), ("cuisine", "")]

def storeW9 : String → Option Record :=
  fun s =>
    if s = "quiet-diner-5-elm" then
      some ⟨[("cuisines", Value.list ["Pizza"]), ("cuisine_slugs", Value.list ["pizza"])], ""⟩
    else none

def outW9 : String × Record × List String :=
  okOut (processRow slugifyModel [] none storeW9 rowW9)

def row1c : Row :=
  [("name", "Cafe"), ("address", "Main St"), ("neighborhood", ""), ("hours", "10-6")]

def store1c : String → Option Record :=
  fun s =>
    if s = "cafe-main-st" then
      some ⟨[("notes", Value.s "A"), ("hours", Value.s "9-5")], "A"⟩
    else none

def row1w : Row :=
  [("name", "Cafe"), ("address", "Main St"), ("neighborhood", ""),
   ("notes", "fresh body"), ("hours", "10-6")]

def store1w : String → Option Record :=
  fun s =>
    if s = "cafe-main-st" then
      some ⟨[("legacy", Value.s "keep"), ("hours", Value.s "9-5")], "A"⟩
    else none

def out1w : String × Record × List String :=
  okOut (processRow slugifyModel [] none store1w row1w)

def aliasFileC2 : AliasesData := [("cuisines", [])]

def rowC2 : Row := [("name", "Spot"), ("address", "1 Oak"), ("neighborhood", "")]

def rowW2 : Row :=
  [("name", "Spot"), ("address", "1 Oak"), ("neighborhood", ""), ("notes", "")]

def storeW2 : String → Option Record :=
  fun s => if s = "spot-1-oak" then some ⟨[("hours", Value.s "9-5")], ""⟩ else none

def outW2 : String × Record × List String :=
  okOut (processRow slugifyModel [] none storeW2 rowW2)

def aliasData3 : AliasesData := [("cuisines", [⟨"Tex Mex", ["texmex"]⟩])]

def row3 : Row :=
  [("name", "X"), ("address", "A"), ("neighborhood", ""), ("notes", ""),
   ("cuisine", "TexMex")]

def out3 : String × Record × List String :=
  okOut (processRow slugifyModel [("texmex", "Tex Mex")] none (fun _ => none) row3)

def row6 : Row :=
  [("name", "Y"), ("address", "B"), ("neighborhood", ""), ("notes", ""),
   ("cuisine", "Pizza, pizza")]

def out6 : String × Record × List String :=
  okOut (processRow slugifyModel [] none (fun _ => none) row6)

def storeW4 : CuStore :=
  fun s =>
    if s = "pizza" then
      some [("title", Value.s "Old Title"), ("name", Value.s "Pizza!")]
    else none


theorem alookup_ainsert {α : Type} (m : List (String × α)) (k key : String) (v : α) :
    alookup (ainsert m k v) key = if k = key then some v else alookup m key := by
  induction m with
  | nil => simp [ainsert, alookup]
  | cons hd tl ih =>
    obtain ⟨k0, w⟩ := hd
    by_cases h0 : k0 = k
    · subst h0
      by_cases h1 : k0 = key <;> simp [ainsert, alookup, h1]
    · by_cases h1 : k0 = key
      · subst h1
        simp [ainsert, alookup, h0, Ne.symm h0]
      · simp [ainsert, alookup, h0, h1, ih]

theorem alookup_ainsert_self {α : Type} (m : List (String × α)) (k : String) (v : α) :
    alookup (ainsert m k v) k = some v := by
  simp [alookup_ainsert]

theorem alookup_ainsert_ne {α : Type} (m : List (String × α)) (k key : String) (v : α)
    (h : k ≠ key) : alookup (ainsert m k v) key = alookup m key := by
  simp [alookup_ainsert, h]

theorem keys_ainsert {α : Type} (m : List (String × α)) (k : String) (v : α) :
    (ainsert m k v).map Prod.fst =
      if (alookup m k).isSome then m.map Prod.fst else m.map Prod.fst ++ [k] := by
  induction m with
  | nil => simp [ainsert, alookup]
  | cons hd tl ih =>
    obtain ⟨k0, w⟩ := hd
    by_cases h0 : k0 = k
    · subst h0
      simp [ainsert, alookup]
    · simp only [ainsert, if_neg h0, alookup, List.map_cons, ih]
      by_cases h1 : (alookup tl k).isSome <;> simp [h0, h1]

theorem alookup_isSome_of_mem_keys {α : Type} (m : List (String × α)) (key : String)
    (h : key ∈ m.map Prod.fst) : (alookup m key).isSome := by
  induction m with
  | nil => cases h
  | cons hd tl ih =>
    obtain ⟨k0, w⟩ := hd
    by_cases hx : k0 = key
    · simp [alookup, hx]
    · simp only [List.map_cons, List.mem_cons] at h
      rcases h with h | h

      · exact absurd h.symm hx
      · simp [alookup, hx, ih h]

theorem nodupKeys_ainsert {α : Type} (m : List (String × α)) (k : String) (v : α)
    (h : NodupKeys m) : NodupKeys (ainsert m k v) := by
  unfold NodupKeys at h ⊢
  rw [keys_ainsert]
  by_cases h1 : (alookup m k).isSome
  · simpa [h1] using h
  · rw [if_neg h1]
    rw [List.nodup_append]
    refine ⟨h, List.nodup_singleton k, ?_⟩
    intro a ha hb
    simp only [List.mem_singleton] at hb
    subst hb
    exact h1 (alookup_isSome_of_mem_keys m a ha)

theorem alookup_mupdate (place : List (String × Value)) (h : NodupKeys place) :
    ∀ (post : List (String × Value)) (key : String),
      alookup (mupdate post place) key =
        match alookup place key with
        | some v => some v
        | none => alookup post key := by
  induction place with
  | nil => intro post key; simp [mupdate, alookup]
  | cons hd tl ih =>
    intro post key
    obtain ⟨k, v⟩ := hd
    unfold NodupKeys at h
    simp only [List.map_cons, List.nodup_cons] at h
    have htl : NodupKeys tl := h.2
    have hstep : mupdate post ((k, v) :: tl) = mupdate (ainsert post k v) tl := rfl
    rw [hstep, ih htl]
    by_cases hk : k = key
    · subst hk
      have : alookup tl k = none := by
        cases hx : alookup tl k with
        | none => rfl
        | some w =>
          exfalso
          apply h.1
          clear ih h htl hstep
          induction tl with
          | nil => simp [alookup] at hx
          | cons hd2 tl2 ih2 =>
            obtain ⟨k2, w2⟩ := hd2
            by_cases h2 : k2 = k
            · subst h2; simp
            · simp only [alookup, if_neg h2] at hx
              simp [ih2 hx]
      simp [this, alookup_ainsert_self, alookup]
    · simp only [alookup, if_neg hk]
      cases hx : alookup tl key with
      | some w => simp
      | none => simp [alookup_ainsert_ne post k key v hk]

theorem fieldFold_cons (row : Row) (coe : String → Value) (v : String)
    (vars : List String) (acc : List (String × Value) × List String) :
    fieldFold row coe (v :: vars) acc = fieldFold row coe vars (fieldStep row coe acc v) := rfl

theorem fieldFold_logs (row : Row) (coe : String → Value) :
    ∀ (vars : List String) (acc : List (String × Value) × List String),
      (fieldFold row coe vars acc).2 =
        acc.2 ++ vars.filter (fun v => (rowGet row v).isNone) := by
  intro vars
  induction vars with
  | nil => intro acc; simp [fieldFold]
  | cons v vars ih =>
    intro acc
    rw [fieldFold_cons, ih]
    unfold fieldStep
    cases hx : rowGet row v with
    | some w => simp [hx, List.filter_cons]
    | none => simp [hx, List.filter_cons]

theorem fieldFold_lookup_notin (row : Row) (coe : String → Value) :
    ∀ (vars : List String) (acc : List (String × Value) × List String) (key : String),
      key ∉ vars →
      alookup (fieldFold row coe vars acc).1 key = alookup acc.1 key := by
  intro vars
  induction vars with
  | nil => intro acc key _; rfl
  | cons v vars ih =>
    intro acc key h
    rw [fieldFold_cons, ih _ key (fun hm => h (List.mem_cons_of_mem v hm))]
    unfold fieldStep
    cases hx : rowGet row v with
    | some w =>
      simp only [hx]
      exact alookup_ainsert_ne _ v key _ (fun he => h (he ▸ List.mem_cons_self v vars))
    | none => simp [hx]

theorem fieldFold_lookup_missing (row : Row) (coe : String → Value) :
    ∀ (vars : List String) (acc : List (String × Value) × List String) (key : String),
      rowGet row key = none →
      alookup (fieldFold row coe vars acc).1 key = alookup acc.1 key := by
  intro vars
  induction vars with
  | nil => intro acc key _; rfl
  | cons v vars ih =>
    intro acc key h
    rw [fieldFold_cons, ih _ key h]
    unfold fieldStep
    cases hx : rowGet row v with
    | some w =>
      have hne : v ≠ key := by
        intro he
        rw [he, h] at hx
        cases hx
      simp only [hx]
      exact alookup_ainsert_ne _ v key _ hne
    | none => simp [hx]

theorem fieldFold_lookup_mem (row : Row) (coe : String → Value) :
    ∀ (vars : List String) (acc : List (String × Value) × List String) (key : String),
      vars.Nodup → key ∈ vars →
      alookup (fieldFold row coe vars acc).1 key =
        match rowGet row key with
        | some v => some (coe v)
        | none => alookup acc.1 key := by
  intro vars
  induction vars with
  | nil => intro acc key _ h; cases h
  | cons v vars ih =>
    intro acc key hnd hmem
    rw [List.nodup_cons] at hnd
    rw [fieldFold_cons]
    rcases List.mem_cons.mp hmem with he | hm
    · subst he
      rw [fieldFold_lookup_notin row coe vars _ key hnd.1]
      unfold fieldStep
      cases hx : rowGet row key with
      | some w => simp [hx, alookup_ainsert_self]
      | none => simp [hx]
    · rw [ih _ key hnd.2 hm]
      cases hx : rowGet row key with
      | some w => simp
      | none =>
        simp only [hx]
        unfold fieldStep
        cases hy : rowGet row v with
        | some w2 =>
          have hne : v ≠ key := by
            intro he
            rw [he, hx] at hy
            cases hy
          simp only [hy]
          exact alookup_ainsert_ne _ v key _ hne
        | none => simp [hy]

theorem fieldFold_nodupKeys (row : Row) (coe : String → Value) :
    ∀ (vars : List String) (acc : List (String × Value) × List String),
      NodupKeys acc.1 → NodupKeys (fieldFold row coe vars acc).1 := by
  intro vars
  induction vars with
  | nil => intro acc h; exact h
  | cons v vars ih =>
    intro acc h
    rw [fieldFold_cons]
    apply ih
    cases hx : rowGet row v with
    | some w => simpa [fieldStep, hx] using nodupKeys_ainsert acc.1 v (coe w) h
    | none => simpa [fieldStep, hx] using h

theorem addCuisineBlock_lookup_ne (sl : String → String) (ca : List (String × String))
    (unknown : Option (List String)) (pl : List (String × Value)) (key : String)
    (h1 : key ≠ "cuisines") (h2 : key ≠ "cuisine_slugs") :
    alookup (addCuisineBlock sl ca unknown pl) key = alookup pl key := by
  unfold addCuisineBlock
  rw [alookup_ainsert_ne _ _ _ _ (Ne.symm h2), alookup_ainsert_ne _ _ _ _ (Ne.symm h1)]

theorem addCuisineBlock_lookup_cuisines (sl : String → String)
    (ca : List (String × String)) (unknown : Option (List String))
    (pl : List (String × Value)) :
    alookup (addCuisineBlock sl ca unknown pl) "cuisines" = some (cuisinesVal sl unknown pl) := by
  unfold addCuisineBlock
  rw [alookup_ainsert_ne _ _ _ _ (by decide), alookup_ainsert_self]

theorem addCuisineBlock_lookup_cuisine_slugs (sl : String → String)
    (ca : List (String × String)) (unknown : Option (List String))
    (pl : List (String × Value)) :
    alookup (addCuisineBlock sl ca unknown pl) "cuisine_slugs" =
      some (cuisineSlugsVal sl ca (cuisinesVal sl unknown pl)) := by
  unfold addCuisineBlock
  rw [alookup_ainsert_self]

theorem addCuisineBlock_nodupKeys (sl : String → String) (ca : List (String × String))
    (unknown : Option (List String)) (pl : List (String × Value))
    (h : NodupKeys pl) : NodupKeys (addCuisineBlock sl ca unknown pl) :=
  nodupKeys_ainsert _ _ _ (nodupKeys_ainsert _ _ _ h)

theorem addNeighborhoodSlug_lookup_ne (sl : String → String)
    (pl : List (String × Value)) (key : String) (h : key ≠ "neighborhood_slug") :
    alookup (addNeighborhoodSlug sl pl) key = alookup pl key := by
  unfold addNeighborhoodSlug
  split
  · split
    · rfl
    · exact alookup_ainsert_ne _ _ _ _ (Ne.symm h)
  · rfl

theorem addNeighborhoodSlug_nodupKeys (sl : String → String)
    (pl : List (String × Value)) (h : NodupKeys pl) :
    NodupKeys (addNeighborhoodSlug sl pl) := by
  unfold addNeighborhoodSlug
  split
  · split
    · exact h
    · exact nodupKeys_ainsert _ _ _ h
  · exact h

theorem foodLoop_logs (row : Row) :
    ∀ (vars : List String) (acc : List (String × String) × List String),
      (vars.foldl (foodStep row) acc).2 =
        acc.2 ++ vars.filter (fun v => (rowGet row v).isNone) := by
  intro vars
  induction vars with
  | nil => intro acc; simp
  | cons v vars ih =>
    intro acc
    rw [List.foldl_cons, ih]
    unfold foodStep
    cases hx : rowGet row v with
    | some w =>
      simp only [hx, List.filter_cons]
      split <;> simp
    | none => simp [hx, List.filter_cons]

theorem addFoodUrls_lookup_ne (row : Row) (pl : List (String × Value)) (key : String)
    (h : key ≠ "food_urls") :
    alookup (addFoodUrls row pl).1 key = alookup pl key := by
  unfold addFoodUrls
  exact alookup_ainsert_ne _ _ _ _ (Ne.symm h)

theorem addFoodUrls_logs (row : Row) (pl : List (String × Value)) :
    (addFoodUrls row pl).2 =
      FOOD_SERVICE_URLS.filter (fun v => (rowGet row v).isNone) := by
  unfold addFoodUrls
  simpa using foodLoop_logs row FOOD_SERVICE_URLS (deliveryFu pl, [])

theorem addFoodUrls_nodupKeys (row : Row) (pl : List (String × Value))
    (h : NodupKeys pl) : NodupKeys (addFoodUrls row pl).1 :=
  nodupKeys_ainsert _ _ _ h

theorem builtPlace_nodupKeys (sl : String → String) (ca : List (String × String))
    (unknown : Option (List String)) (row : Row) (slug : String) :
    NodupKeys (builtPlace sl ca unknown row slug).1 := by
  unfold builtPlace buildPlaceFields
  apply addFoodUrls_nodupKeys
  apply addNeighborhoodSlug_nodupKeys
  apply addCuisineBlock_nodupKeys
  apply fieldFold_nodupKeys
  apply fieldFold_nodupKeys
  apply fieldFold_nodupKeys
  show NodupKeys [("sitemap", Value.b false), ("slug", Value.s slug)]
  unfold NodupKeys
  simp only [List.map_cons, List.map_nil]
  decide

theorem builtPlace_logs (sl : String → String) (ca : List (String × String))
    (unknown : Option (List String)) (row : Row) (slug : String) :
    (builtPlace sl ca unknown row slug).2 =
      (allDeclaredFields ++ FOOD_SERVICE_URLS).filter (fun v => (rowGet row v).isNone) := by
  simp only [builtPlace, buildPlaceFields]
  rw [addFoodUrls_logs]
  simp only [fieldFold_logs]
  simp [allDeclaredFields, List.filter_append]

theorem builtPlace_lookup_missing (sl : String → String) (ca : List (String × String))
    (unknown : Option (List String)) (row : Row) (slug : String) (key : String)
    (hm : rowGet row key = none)
    (h1 : key ≠ "sitemap") (h2 : key ≠ "slug") (h3 : key ≠ "cuisines")
    (h4 : key ≠ "cuisine_slugs") (h5 : key ≠ "neighborhood_slug")
    (h6 : key ≠ "food_urls") :
    alookup (builtPlace sl ca unknown row slug).1 key = none := by
  unfold builtPlace buildPlaceFields
  rw [addFoodUrls_lookup_ne _ _ _ h6, addNeighborhoodSlug_lookup_ne _ _ _ h5,
    addCuisineBlock_lookup_ne _ _ _ _ _ h3 h4,
    fieldFold_lookup_missing _ _ _ _ _ hm, fieldFold_lookup_missing _ _ _ _ _ hm,
    fieldFold_lookup_missing _ _ _ _ _ hm]
  simp [alookup, h1, h2, Ne.symm h1, Ne.symm h2]

theorem builtPlace_lookup_sitemap (sl : String → String) (ca : List (String × String))
    (unknown : Option (List String)) (row : Row) (slug : String) :
    alookup (builtPlace sl ca unknown row slug).1 "sitemap" = some (Value.b false) := by
  unfold builtPlace buildPlaceFields
  rw [addFoodUrls_lookup_ne _ _ _ (by decide), addNeighborhoodSlug_lookup_ne _ _ _ (by decide),
    addCuisineBlock_lookup_ne _ _ _ _ _ (by decide) (by decide),
    fieldFold_lookup_notin _ _ _ _ _ (by decide), fieldFold_lookup_notin _ _ _ _ _ (by decide),
    fieldFold_lookup_notin _ _ _ _ _ (by decide)]
  rfl

theorem builtPlace_lookup_slug (sl : String → String) (ca : List (String × String))
    (unknown : Option (List String)) (row : Row) (slug : String) :
    alookup (builtPlace sl ca unknown row slug).1 "slug" = some (Value.s slug) := by
  unfold builtPlace buildPlaceFields
  rw [addFoodUrls_lookup_ne _ _ _ (by decide), addNeighborhoodSlug_lookup_ne _ _ _ (by decide),
    addCuisineBlock_lookup_ne _ _ _ _ _ (by decide) (by decide),
    fieldFold_lookup_notin _ _ _ _ _ (by decide), fieldFold_lookup_notin _ _ _ _ _ (by decide),
    fieldFold_lookup_notin _ _ _ _ _ (by decide)]
  rfl

theorem buildPlaceFields_lookup_cuisine (row : Row) (slug : String) :
    alookup (buildPlaceFields row slug).1 "cuisine" = (rowGet row "cuisine").map Value.s := by
  unfold buildPlaceFields
  rw [fieldFold_lookup_notin _ _ _ _ _ (by decide),
    fieldFold_lookup_mem _ _ _ _ _ (by decide) (by decide)]
  cases hx : rowGet row "cuisine" with
  | some w => simp [strCoe]
  | none =>
    rw [fieldFold_lookup_notin _ _ _ _ _ (by decide)]
    simp [alookup]

theorem builtPlace_lookup_cuisines (sl : String → String) (ca : List (String × String))
    (unknown : Option (List String)) (row : Row) (slug : String) :
    alookup (builtPlace sl ca unknown row slug).1 "cuisines" =
      some (cuisinesVal sl unknown (buildPlaceFields row slug).1) := by
  unfold builtPlace
  rw [addFoodUrls_lookup_ne _ _ _ (by decide), addNeighborhoodSlug_lookup_ne _ _ _ (by decide),
    addCuisineBlock_lookup_cuisines]

theorem builtPlace_lookup_cuisine_slugs (sl : String → String) (ca : List (String × String))
    (unknown : Option (List String)) (row : Row) (slug : String) :
    alookup (builtPlace sl ca unknown row slug).1 "cuisine_slugs" =
      some (cuisineSlugsVal sl ca (cuisinesVal sl unknown (buildPlaceFields row slug).1)) := by
  unfold builtPlace
  rw [addFoodUrls_lookup_ne _ _ _ (by decide), addNeighborhoodSlug_lookup_ne _ _ _ (by decide),
    addCuisineBlock_lookup_cuisine_slugs]

theorem processRow_ok (sl : String → String) (ca : List (String × String))
    (unknown : Option (List String)) (store : String → Option Record) (row : Row)
    (name address neighborhood notes : String)
    (hn : rowGet row "name" = some name) (ha : rowGet row "address" = some address)
    (hb : rowGet row "neighborhood" = some neighborhood)
    (ht : rowGet row "notes" = some notes) :
    processRow sl ca unknown store row =
      Except.ok
        (sl (name ++ " " ++ (if neighborhood = "" then address else neighborhood)),
         ⟨mupdate
            ((store (sl (name ++ " " ++ (if neighborhood = "" then address else neighborhood)))).getD
              emptyRecord).metadata
            (builtPlace sl ca unknown row
              (sl (name ++ " " ++ (if neighborhood = "" then address else neighborhood)))).1,
          notes⟩,
         (builtPlace sl ca unknown row
           (sl (name ++ " " ++ (if neighborhood = "" then address else neighborhood)))).2) := by
  simp only [processRow, hn, ha, hb, ht]

theorem processRow_ok_inv (sl : String → String) (ca : List (String × String))
    (unknown : Option (List String)) (store : String → Option Record) (row : Row)
    (slug : String) (rec : Record) (logs : List String)
    (h : processRow sl ca unknown store row = Except.ok (slug, rec, logs)) :
    ∃ name address neighborhood notes,
      rowGet row "name" = some name ∧ rowGet row "address" = some address ∧
      rowGet row "neighborhood" = some neighborhood ∧ rowGet row "notes" = some notes ∧
      slug = sl (name ++ " " ++ (if neighborhood = "" then address else neighborhood)) ∧
      rec = ⟨mupdate ((store slug).getD emptyRecord).metadata
              (builtPlace sl ca unknown row slug).1, notes⟩ ∧
      logs = (builtPlace sl ca unknown row slug).2 := by
  cases hn : rowGet row "name" with
  | none => simp [processRow, hn] at h
  | some name =>
    cases ha : rowGet row "address" with
    | none => simp [processRow, hn, ha] at h
    | some address =>
      cases hb : rowGet row "neighborhood" with
      | none => simp [processRow, hn, ha, hb] at h
      | some neighborhood =>
        cases ht : rowGet row "notes" with
        | none => simp [processRow, hn, ha, hb, ht] at h
        | some notes =>
          rw [processRow_ok sl ca unknown store row name address neighborhood notes hn ha hb ht] at h
          simp only [Except.ok.injEq, Prod.mk.injEq] at h
          obtain ⟨h1, h2, h3⟩ := h
          subst h1
          exact ⟨name, address, neighborhood, notes, rfl, rfl, rfl, rfl, rfl, h2.symm, h3.symm⟩

/-- Claim C10: every Place record written by sync_places carries
sitemap = False and slug = the slug computed from the identity fields of the
row (name joined with the neighborhood when non-empty, else the address),
whatever the persisted record held before. -/
theorem place_record_sitemap_slug (sl : String → String) (ca : List (String × String))
    (unknown : Option (List String)) (store : String → Option Record) (row : Row)
    (slug : String) (rec : Record) (logs : List String)
    (h : processRow sl ca unknown store row = Except.ok (slug, rec, logs)) :
    alookup rec.metadata "sitemap" = some (Value.b false) ∧
    alookup rec.metadata "slug" = some (Value.s slug) ∧
    ∀ name address neighborhood,
      rowGet row "name" = some name → rowGet row "address" = some address →
      rowGet row "neighborhood" = some neighborhood →
      slug = sl (name ++ " " ++ (if neighborhood = "" then address else neighborhood)) := by
  obtain ⟨name, address, nb, notes, hn, ha, hb, ht, hslug, hrec, hlogs⟩ :=
    processRow_ok_inv _ _ _ _ _ _ _ _ h
  subst hrec
  refine ⟨?_, ?_, ?_⟩
  · show alookup (mupdate ((store slug).getD emptyRecord).metadata
      (builtPlace sl ca unknown row slug).1) "sitemap" = some (Value.b false)
    rw [alookup_mupdate _ (builtPlace_nodupKeys sl ca unknown row slug),
      builtPlace_lookup_sitemap]
  · show alookup (mupdate ((store slug).getD emptyRecord).metadata
      (builtPlace sl ca unknown row slug).1) "slug" = some (Value.s slug)
    rw [alookup_mupdate _ (builtPlace_nodupKeys sl ca unknown row slug),
      builtPlace_lookup_slug]
  · intro n2 a2 b2 hn2 ha2 hb2
    rw [hn] at hn2
    rw [ha] at ha2
    rw [hb] at hb2
    injection hn2 with e1
    injection ha2 with e2
    injection hb2 with e3
    subst e1
    subst e2
    subst e3
    exact hslug

theorem place_record_sitemap_slug_witness :
    processRow slugifyModel [] none storeW10 rowW10 = Except.ok outW10 ∧
    alookup outW10.2.1.metadata "sitemap" = some (Value.b false) ∧
    alookup outW10.2.1.metadata "slug" = some (Value.s outW10.1) :=
  ⟨rfl,
   (place_record_sitemap_slug slugifyModel [] none storeW10 rowW10
     outW10.1 outW10.2.1 outW10.2.2 rfl).1,
   (place_record_sitemap_slug slugifyModel [] none storeW10 rowW10
     outW10.1 outW10.2.1 outW10.2.2 rfl).2.1⟩

/-- Claim C9: a row whose cuisine column is missing or empty makes sync_places
store explicit None under both cuisines and cuisine_slugs, overwriting any
previously persisted lists (unlike other absent fields, which are preserved). -/
theorem empty_cuisine_writes_none (sl : String → String) (ca : List (String × String))
    (unknown : Option (List String)) (store : String → Option Record) (row : Row)
    (slug : String) (rec : Record) (logs : List String)
    (h : processRow sl ca unknown store row = Except.ok (slug, rec, logs))
    (hc : rowGet row "cuisine" = none ∨ rowGet row "cuisine" = some "") :
    alookup rec.metadata "cuisines" = some Value.vnone ∧
    alookup rec.metadata "cuisine_slugs" = some Value.vnone := by
  obtain ⟨name, address, nb, notes, hn, ha, hb, ht, hslug, hrec, hlogs⟩ :=
    processRow_ok_inv _ _ _ _ _ _ _ _ h
  subst hrec
  have hcv : cuisinesVal sl unknown (buildPlaceFields row slug).1 = Value.vnone := by
    unfold cuisinesVal
    rw [buildPlaceFields_lookup_cuisine]
    rcases hc with hc | hc <;> simp [hc]
  constructor
  · show alookup (mupdate ((store slug).getD emptyRecord).metadata
      (builtPlace sl ca unknown row slug).1) "cuisines" = some Value.vnone
    rw [alookup_mupdate _ (builtPlace_nodupKeys sl ca unknown row slug),
      builtPlace_lookup_cuisines, hcv]
  · show alookup (mupdate ((store slug).getD emptyRecord).metadata
      (builtPlace sl ca unknown row slug).1) "cuisine_slugs" = some Value.vnone
    rw [alookup_mupdate _ (builtPlace_nodupKeys sl ca unknown row slug),
      builtPlace_lookup_cuisine_slugs, hcv]
    rfl

theorem empty_cuisine_writes_none_witness :
    processRow slugifyModel [] none storeW9 rowW9 = Except.ok outW9 ∧
    rowGet rowW9 "cuisine" = some "" ∧
    alookup outW9.2.1.metadata "cuisines" = some Value.vnone ∧
    alookup outW9.2.1.metadata "cuisine_slugs" = some Value.vnone :=
  ⟨rfl, rfl,
   (empty_cuisine_writes_none slugifyModel [] none storeW9 rowW9
     outW9.1 outW9.2.1 outW9.2.2 rfl (Or.inr rfl)).1,
   (empty_cuisine_writes_none slugifyModel [] none storeW9 rowW9
     outW9.1 outW9.2.1 outW9.2.2 rfl (Or.inr rfl)).2⟩

/-- Claim C1 (amended): whenever sync_places succeeds on a row, every
metadata key absent from the computed place dict keeps its persisted value
through the merge.  The specific scenario of the claim (a row supplying only
hours) does not reach the merge: see the counterexample. -/
theorem merge_preserves_uncomputed_fields (sl : String → String)
    (ca : List (String × String)) (unknown : Option (List String))
    (store : String → Option Record) (row : Row) (key : String)
    (slug : String) (rec : Record) (logs : List String)
    (h : processRow sl ca unknown store row = Except.ok (slug, rec, logs))
    (hk : alookup (builtPlace sl ca unknown row slug).1 key = none) :
    alookup rec.metadata key = alookup ((store slug).getD emptyRecord).metadata key := by
  obtain ⟨name, address, nb, notes, hn, ha, hb, ht, hslug, hrec, hlogs⟩ :=
    processRow_ok_inv _ _ _ _ _ _ _ _ h
  subst hrec
  show alookup (mupdate ((store slug).getD emptyRecord).metadata
    (builtPlace sl ca unknown row slug).1) key = _
  rw [alookup_mupdate _ (builtPlace_nodupKeys sl ca unknown row slug), hk]

/-- Claim C1, counterexample to the stated scenario: against an existing
record with notes A and hours 9-5, a row supplying only hours 10-6 (with its
identity columns, but no notes column) aborts the row with the unguarded
notes read, so no merged record with notes A and hours 10-6 is ever
produced. -/
theorem merge_example_counterexample :
    store1c "cafe-main-st" =
      some ⟨[("notes", Value.s "A"), ("hours", Value.s "9-5")], "A"⟩ ∧
    processRow slugifyModel [] none store1c row1c = Except.error "notes" :=
  ⟨rfl, rfl⟩

theorem merge_preserves_uncomputed_fields_witness :
    processRow slugifyModel [] none store1w row1w = Except.ok out1w ∧
    alookup (builtPlace slugifyModel [] none row1w out1w.1).1 "legacy" = none ∧
    alookup out1w.2.1.metadata "legacy" = some (Value.s "keep") :=
  ⟨rfl, by decide, by
    have hpres := merge_preserves_uncomputed_fields slugifyModel [] none store1w row1w
      "legacy" out1w.1 out1w.2.1 out1w.2.2 rfl (by decide)
    rw [hpres]
    rfl⟩

/-- Claim C2 (amended): a missing declared column is non-fatal, logged once,
and leaves the prior persisted value untouched, provided the row still has
the name, address, neighborhood and notes columns; those four are also read
outside the guarded loops, so a row missing one of them makes the whole pass
fail (see the counterexample for the notes column). -/
theorem missing_column_nonfatal (sl : String → String) (ca : List (String × String))
    (unknown : Option (List String)) (store : String → Option Record) (row : Row)
    (var : String)
    (hn : (rowGet row "name").isSome = true)
    (ha : (rowGet row "address").isSome = true)
    (hb : (rowGet row "neighborhood").isSome = true)
    (ht : (rowGet row "notes").isSome = true)
    (hv : var ∈ allDeclaredFields)
    (hm : rowGet row var = none) :
    (processRow sl ca unknown store row).isOk = true ∧
    (∀ slug rec logs, processRow sl ca unknown store row = Except.ok (slug, rec, logs) →
      alookup rec.metadata var = alookup ((store slug).getD emptyRecord).metadata var ∧
      logs.count var = 1) := by
  obtain ⟨name, hn⟩ := Option.isSome_iff_exists.mp hn
  obtain ⟨address, ha⟩ := Option.isSome_iff_exists.mp ha
  obtain ⟨nb, hb⟩ := Option.isSome_iff_exists.mp hb
  obtain ⟨notes, ht⟩ := Option.isSome_iff_exists.mp ht
  have hspec : ∀ v ∈ allDeclaredFields,
      v ≠ "sitemap" ∧ v ≠ "slug" ∧ v ≠ "cuisines" ∧ v ≠ "cuisine_slugs" ∧
      v ≠ "neighborhood_slug" ∧ v ≠ "food_urls" := by decide
  obtain ⟨s1, s2, s3, s4, s5, s6⟩ := hspec var hv
  constructor
  · rw [processRow_ok sl ca unknown store row name address nb notes hn ha hb ht]
    rfl
  · intro slug rec logs h
    obtain ⟨name2, address2, nb2, notes2, hn2, ha2, hb2, ht2, hslug, hrec, hlogs⟩ :=
      processRow_ok_inv _ _ _ _ _ _ _ _ h
    subst hrec
    constructor
    · show alookup (mupdate ((store slug).getD emptyRecord).metadata
        (builtPlace sl ca unknown row slug).1) var = _
      rw [alookup_mupdate _ (builtPlace_nodupKeys sl ca unknown row slug),
        builtPlace_lookup_missing sl ca unknown row slug var hm s1 s2 s3 s4 s5 s6]
    · subst hlogs
      rw [builtPlace_logs]
      rw [List.count_filter (by simp [hm])]
      have hcount : ∀ v ∈ allDeclaredFields,
          (allDeclaredFields ++ FOOD_SERVICE_URLS).count v = 1 := by decide
      exact hcount var hv

/-- Claim C2, counterexample: notes is a declared string column, yet a single
row missing it makes the whole sync-places pass fail, because the body
assignment reads the notes column outside any guard. -/
theorem notes_column_fatal_counterexample :
    "notes" ∈ allDeclaredFields ∧
    rowGet rowC2 "notes" = none ∧
    syncPlacesCmd slugifyModel (some aliasFileC2) (fun _ => none) [rowC2] =
      Except.error "notes" :=
  ⟨by decide, rfl, rfl⟩

theorem missing_column_nonfatal_witness :
    rowGet rowW2 "hours" = none ∧
    (processRow slugifyModel [] none storeW2 rowW2).isOk = true ∧
    alookup outW2.2.1.metadata "hours" = some (Value.s "9-5") ∧
    outW2.2.2.count "hours" = 1 :=
  ⟨rfl,
   (missing_column_nonfatal slugifyModel [] none storeW2 rowW2 "hours"
     rfl rfl rfl rfl (by decide) rfl).1,
   by
     have h := (missing_column_nonfatal slugifyModel [] none storeW2 rowW2 "hours"
       rfl rfl rfl rfl (by decide) rfl).2 outW2.1 outW2.2.1 outW2.2.2 rfl
     rw [h.1]
     rfl,
   by
     have h := (missing_column_nonfatal slugifyModel [] none storeW2 rowW2 "hours"
       rfl rfl rfl rfl (by decide) rfl).2 outW2.1 outW2.2.1 outW2.2.2 rfl
     exact h.2⟩

theorem alookup_mem_values {α : Type} (d : List (String × α)) (k : String) (v : α)
    (h : alookup d k = some v) : v ∈ d.map Prod.snd := by
  induction d with
  | nil => simp [alookup] at h
  | cons hd tl ih =>
    obtain ⟨k0, w⟩ := hd
    by_cases hx : k0 = k
    · simp only [alookup, if_pos hx, Option.some.injEq] at h
      subst h
      simp
    · simp only [alookup, if_neg hx] at h
      simp [ih h]

theorem buildCuisineSlugs_append (sl : String → String) (d : List (String × String))
    (cs : List String) (v : String) :
    buildCuisineSlugs sl d (cs ++ [v]) =
      cuisineSlugStep sl d (buildCuisineSlugs sl d cs) v := by
  unfold buildCuisineSlugs
  rw [List.foldl_append]
  rfl

/-- Claim C3 (amended): for one further label v, the cuisine_slugs loop
appends slug(v) unconditionally; when slug(v) has an alias entry, it
additionally appends the canonical entry's NAME verbatim (not its slug)
unless that name is already in the list; with no alias entry nothing else is
appended.  The stated claim, that the resolved entry equals the slug of the
canonical name, fails whenever the persisted canonical name is not already
in slug form: see the counterexample. -/
theorem alias_resolution_appends_name (sl : String → String)
    (d : List (String × String)) (cs : List String) (v : String) :
    (alookup d (sl v) = none →
      buildCuisineSlugs sl d (cs ++ [v]) = buildCuisineSlugs sl d cs ++ [sl v]) ∧
    (∀ canon, alookup d (sl v) = some canon →
      buildCuisineSlugs sl d (cs ++ [v]) =
        if (buildCuisineSlugs sl d cs ++ [sl v]).contains canon then
          buildCuisineSlugs sl d cs ++ [sl v]
        else buildCuisineSlugs sl d cs ++ [sl v] ++ [canon]) := by
  constructor
  · intro h
    rw [buildCuisineSlugs_append]
    simp [cuisineSlugStep, h]
  · intro canon h
    rw [buildCuisineSlugs_append]
    simp [cuisineSlugStep, h]

/-- Claim C3, counterexample: with alias table entry name Tex Mex, aliases
[texmex], the label TexMex resolves and sync_places appends the canonical
name Tex Mex verbatim to cuisine_slugs, not its slug tex-mex. -/
theorem alias_resolution_counterexample :
    aliases_to_cuisine aliasData3 = Except.ok [("texmex", "Tex Mex")] ∧
    slugifyModel "TexMex" = "texmex" ∧
    processRow slugifyModel [("texmex", "Tex Mex")] none (fun _ => none) row3 =
      Except.ok out3 ∧
    alookup out3.2.1.metadata "cuisine_slugs" = some (Value.list ["texmex", "Tex Mex"]) ∧
    slugifyModel "Tex Mex" = "tex-mex" ∧
    ("Tex Mex" : String) ≠ "tex-mex" := by
  refine ⟨rfl, by decide, rfl, by decide, by decide, by decide⟩

theorem alias_resolution_appends_name_witness :
    alookup [("texmex", "Tex Mex")] (slugifyModel "TexMex") = some "Tex Mex" ∧
    buildCuisineSlugs slugifyModel [("texmex", "Tex Mex")] ([] ++ ["TexMex"]) =
      ["texmex", "Tex Mex"] ∧
    alookup [("texmex", "Tex Mex")] (slugifyModel "Deli") = none ∧
    buildCuisineSlugs slugifyModel [("texmex", "Tex Mex")] ([] ++ ["Deli"]) = ["deli"] :=
  ⟨by decide,
   by
     have h := (alias_resolution_appends_name slugifyModel [("texmex", "Tex Mex")]
       [] "TexMex").2 "Tex Mex" (by decide)
     rw [h]
     decide,
   by decide,
   by
     have h := (alias_resolution_appends_name slugifyModel [("texmex", "Tex Mex")]
       [] "Deli").1 (by decide)
     rw [h]
     decide⟩

theorem cuisineSlugStep_mem (sl : String → String) (d : List (String × String))
    (acc : List String) (c x : String) (hx : x ∈ cuisineSlugStep sl d acc c) :
    x ∈ acc ∨ x = sl c ∨ x ∈ d.map Prod.snd := by
  simp only [cuisineSlugStep] at hx
  cases halias : alookup d (sl c) with
  | none =>
    rw [halias] at hx
    rcases List.mem_append.mp hx with h | h
    · exact Or.inl h
    · simp only [List.mem_singleton] at h
      exact Or.inr (Or.inl h)
  | some canon =>
    rw [halias] at hx
    dsimp only at hx
    by_cases hcon : ((acc ++ [sl c]).contains canon = true)
    · rw [if_pos hcon] at hx
      rcases List.mem_append.mp hx with h | h
      · exact Or.inl h
      · simp only [List.mem_singleton] at h
        exact Or.inr (Or.inl h)
    · rw [if_neg hcon] at hx
      rcases List.mem_append.mp hx with h | h
      · rcases List.mem_append.mp h with h2 | h2
        · exact Or.inl h2
        · simp only [List.mem_singleton] at h2
          exact Or.inr (Or.inl h2)
      · simp only [List.mem_singleton] at h
        subst h
        exact Or.inr (Or.inr (alookup_mem_values d (sl c) x halias))

theorem cuisineSlugStep_nodup (sl : String → String) (d : List (String × String))
    (acc : List String) (c : String) (hnd : acc.Nodup) (hc : sl c ∉ acc) :
    (cuisineSlugStep sl d acc c).Nodup := by
  have ha2 : (acc ++ [sl c]).Nodup := by simp [List.nodup_append, hnd, hc]
  simp only [cuisineSlugStep]
  cases halias : alookup d (sl c) with
  | none => exact ha2
  | some canon =>
    dsimp only
    by_cases hcon : ((acc ++ [sl c]).contains canon = true)
    · rw [if_pos hcon]
      exact ha2
    · rw [if_neg hcon]
      have hnm : canon ∉ acc ++ [sl c] := by simpa using hcon
      have hnm1 : canon ∉ acc := fun h => hnm (List.mem_append.mpr (Or.inl h))
      have hnm2 : ¬ sl c = canon := fun h => hnm (List.mem_append.mpr (Or.inr (by simp [h])))
      simp [List.nodup_append, hnd, hc, hnm1, hnm2]

theorem buildCuisineSlugs_nodup_aux (sl : String → String)
    (d : List (String × String)) :
    ∀ (cs : List String) (acc : List String),
      acc.Nodup →
      (∀ c ∈ cs, sl c ∉ acc) →
      (cs.map sl).Nodup →
      (∀ c ∈ cs, ∀ p ∈ d, sl c ≠ p.2) →
      (List.foldl (cuisineSlugStep sl d) acc cs).Nodup := by
  intro cs
  induction cs with
  | nil => intro acc h _ _ _; exact h
  | cons c cs ih =>
    intro acc hnd hacc hmap hcanon
    rw [List.foldl_cons]
    have hcself : sl c ∉ acc := hacc c (List.mem_cons_self c cs)
    simp only [List.map_cons, List.nodup_cons] at hmap
    apply ih _ (cuisineSlugStep_nodup sl d acc c hnd hcself)
    · intro c2 hc2 hmem
      rcases cuisineSlugStep_mem sl d acc c (sl c2) hmem with h | h | h
      · exact hacc c2 (List.mem_cons_of_mem c hc2) h
      · exact hmap.1 (h ▸ List.mem_map_of_mem sl hc2)
      · rcases List.mem_map.mp h with ⟨p, hp, hps⟩
        exact hcanon c2 (List.mem_cons_of_mem c hc2) p hp hps.symm
    · exact hmap.2
    · intro c2 hc2 p hp
      exact hcanon c2 (List.mem_cons_of_mem c hc2) p hp

/-- Claim C6 (amended): only the alias-resolved canonical entries are checked
against the list before being appended; the original slugs are appended
unconditionally, so cuisine_slugs is duplicate-free only when the labels have
pairwise distinct slugs, none of which collides with a canonical name of the
alias mapping.  Two labels with the same slug produce a duplicate: see the
counterexample. -/
theorem cuisine_slugs_nodup_when_slugs_distinct (sl : String → String)
    (d : List (String × String)) (cs : List String)
    (h1 : (cs.map sl).Nodup)
    (h2 : ∀ c ∈ cs, ∀ p ∈ d, sl c ≠ p.2) :
    (buildCuisineSlugs sl d cs).Nodup :=
  buildCuisineSlugs_nodup_aux sl d cs [] List.nodup_nil (by simp) h1 h2

/-- Claim C6, counterexample: the row cuisine cell Pizza, pizza holds two
labels with the same slug, and sync_places stores cuisine_slugs
[pizza, pizza], which is not duplicate-free. -/
theorem cuisine_slugs_dedup_counterexample :
    processRow slugifyModel [] none (fun _ => none) row6 = Except.ok out6 ∧
    alookup out6.2.1.metadata "cuisine_slugs" = some (Value.list ["pizza", "pizza"]) ∧
    ¬ (["pizza", "pizza"] : List String).Nodup :=
  ⟨rfl, by decide, by decide⟩

theorem cuisine_slugs_nodup_witness :
    ((["Pizza", "Thai"].map slugifyModel).Nodup) ∧
    (buildCuisineSlugs slugifyModel [("texmex", "Mexican")] ["Pizza", "Thai"]).Nodup :=
  ⟨by decide,
   cuisine_slugs_nodup_when_slugs_distinct slugifyModel [("texmex", "Mexican")]
     ["Pizza", "Thai"] (by decide) (by decide)⟩

/-- Claim C7, counterexample: httpexample.com is non-empty and has no scheme,
yet verify_http returns it unchanged instead of prefixing https, because the
source tests the literal prefix http, not scheme presence; conversely a value
with a non-http scheme is not returned unchanged. -/
theorem url_normalization_counterexample :
    hasUrlScheme "httpexample.com" = false ∧
    ("httpexample.com" : String) ≠ "" ∧
    verify_http "httpexample.com" = "httpexample.com" ∧
    ("httpexample.com" : String) ≠ "https://httpexample.com" ∧
    hasUrlScheme "ftp://files.example.com" = true ∧
    verify_http "ftp://files.example.com" = "https://ftp://files.example.com" := by
  refine ⟨by decide, by decide, by decide, by decide, by decide, by decide⟩

/-- Claim C7 (amended): verify_http decides by the literal prefix http: the
empty value stays empty, any value starting with http (whether or not it has
a scheme) is returned unchanged, and every other non-empty value is prefixed
with https://. -/
theorem url_normalization (value : String) :
    (value = "" → verify_http value = "") ∧
    (startsWithHttp value = true → verify_http value = value) ∧
    (value ≠ "" → startsWithHttp value = false →
      verify_http value = "https://" ++ value) := by
  refine ⟨?_, ?_, ?_⟩
  · intro h
    subst h
    rfl
  · intro h
    simp [verify_http, h]
  · intro h1 h2
    simp [verify_http, h1, h2]

theorem url_normalization_witness :
    ("example.com" : String) ≠ "" ∧ startsWithHttp "example.com" = false ∧
    verify_http "example.com" = "https://example.com" ∧
    startsWithHttp "http://example.com" = true ∧
    verify_http "http://example.com" = "http://example.com" ∧
    verify_http "" = "" :=
  ⟨by decide, by decide,
   (url_normalization "example.com").2.2 (by decide) (by decide),
   by decide,
   (url_normalization "http://example.com").2.1 (by decide),
   (url_normalization "").1 rfl⟩

/-- Claim C8: boolean coercion maps Y to true, no to false, the empty string
to false, a missing value to false, and any value outside the coercion table
to false instead of failing the row. -/
theorem boolean_coercion :
    string_to_boolean (some "Y") = true ∧
    string_to_boolean (some "no") = false ∧
    string_to_boolean (some "") = false ∧
    string_to_boolean none = false ∧
    ∀ s, alookup coerce_values (lowerStr s) = none → string_to_boolean (some s) = false := by
  refine ⟨by decide, by decide, by decide, rfl, ?_⟩
  intro s h
  simp [string_to_boolean, booleanValidate, h]

theorem boolean_coercion_witness :
    alookup coerce_values (lowerStr "maybe") = none ∧
    string_to_boolean (some "maybe") = false :=
  ⟨by decide, boolean_coercion.2.2.2.2 "maybe" (by decide)⟩

theorem foldl_custore_preserve {β : Type} (step : CuStore → β → CuStore)
    (hstep : ∀ (st : CuStore) (a : β) (s : String) (v : List (String × Value)),
      st s = some v → step st a s = some v) :
    ∀ (l : List β) (st : CuStore) (s : String) (v : List (String × Value)),
      st s = some v → (List.foldl step st l) s = some v := by
  intro l
  induction l with
  | nil => intro st s v h; exact h
  | cons a l ih =>
    intro st s v h
    rw [List.foldl_cons]
    exact ih _ s v (hstep st a s v h)

theorem seedStep_preserve (sl : String → String) (ca : List AliasEntry)
    (st : CuStore) (a s : String) (v : List (String × Value)) (h : st s = some v) :
    seedStep sl ca false st a s = some v := by
  unfold seedStep
  by_cases hw : (st (sl a)).isNone = true
  · have hw2 : st (sl a) = none := Option.isNone_iff_eq_none.mp hw
    have hne : s ≠ sl a := by
      intro he
      rw [he, hw2] at h
      cases h
    simp [hw, hne, h]
  · have hw2 : (st (sl a)).isNone = false := by rwa [Bool.not_eq_true] at hw
    simp [hw2, h]

theorem placeholderStep_preserve (sl : String → String) (alias_data : List String)
    (st : CuStore) (a s : String) (v : List (String × Value)) (h : st s = some v) :
    placeholderStep sl alias_data st a s = some v := by
  unfold placeholderStep
  by_cases hc : lowerStr a ∈ alias_data
  · simp [hc, h]
  · by_cases hw : (st (sl a)).isNone = true
    · have hw2 : st (sl a) = none := Option.isNone_iff_eq_none.mp hw
      have hne : s ≠ sl a := by
        intro he
        rw [he, hw2] at h
        cases h
      simp [hc, hw, hne, h]
    · have hw2 : (st (sl a)).isNone = false := by rwa [Bool.not_eq_true] at hw
      simp [hc, hw2, h]

/-- Claim C4: with overwrite not set, cuisine taxonomy regeneration never
touches an existing record of the cuisines collection: whatever the seed
list, the alias table and the observed values are, every slug that already
has a record keeps exactly its old content (both loops write only to slugs
whose file does not exist). -/
theorem sync_cuisines_no_overwrite_preserves (sl : String → String)
    (seeds : List String) (ca : List AliasEntry) (placeData : List String)
    (store : CuStore) (s : String) (v : List (String × Value))
    (h : store s = some v) :
    sync_cuisines sl seeds false ca placeData store s = some v := by
  unfold sync_cuisines
  exact foldl_custore_preserve _
    (fun st a s2 v2 h2 => placeholderStep_preserve sl _ st a s2 v2 h2) _ _ _ _
    (foldl_custore_preserve _
      (fun st a s2 v2 h2 => seedStep_preserve sl ca st a s2 v2 h2) _ _ _ _ h)

theorem sync_cuisines_no_overwrite_preserves_witness :
    storeW4 "pizza" = some [("title", Value.s "Old Title"), ("name", Value.s "Pizza!")] ∧
    sync_cuisines slugifyModel CUISINE_INITIAL false [] ["Sushi", "Pho"] storeW4 "pizza" =
      some [("title", Value.s "Old Title"), ("name", Value.s "Pizza!")] :=
  ⟨rfl,
   sync_cuisines_no_overwrite_preserves slugifyModel CUISINE_INITIAL [] ["Sushi", "Pho"]
     storeW4 "pizza" _ rfl⟩

/-- Claim C5, counterexample: with no persisted alias data, load_aliases does
return the empty structure, but each of the three commands that consult the
alias table then aborts with the missing cuisines key instead of running to
completion. -/
theorem first_run_counterexample :
    load_aliases none = ([] : AliasesData) ∧
    syncPlacesCmd slugifyModel none (fun _ => none) [] = Except.error "cuisines" ∧
    syncCuisinesCmd slugifyModel false none [] (fun _ => none) = Except.error "cuisines" ∧
    sync_cuisines_to_aliases slugifyModel none [] = Except.error "cuisines" :=
  ⟨rfl, rfl, rfl, rfl⟩

/-- Claim C5 (amended): loading with no persisted alias data yields the empty
structure, but every sync command that consults the alias table (sync-places,
sync-cuisines, sync-cuisines-to-aliases) then fails on the missing cuisines
key of that empty structure, whatever its other inputs: the first run is an
error state until an alias file with a cuisines key exists. -/
theorem first_run_aliases_behavior :
    load_aliases none = ([] : AliasesData) ∧
    (∀ (sl : String → String) (store : String → Option Record) (rows : List Row),
      syncPlacesCmd sl none store rows = Except.error "cuisines") ∧
    (∀ (sl : String → String) (overwrite : Bool) (placeData : List String) (store : CuStore),
      syncCuisinesCmd sl overwrite none placeData store = Except.error "cuisines") ∧
    (∀ (sl : String → String) (placeData : List String),
      sync_cuisines_to_aliases sl none placeData = Except.error "cuisines") :=
  ⟨rfl, fun _ _ _ => rfl, fun _ _ _ _ => rfl, fun _ _ => rfl⟩
